import Mathlib

/-!
Shallow embedding of the video ingestion and publishing pipeline
(`handler_upload_video.go`, `get_video_aspect_ratio.go`,
`preprocess_video.go`, `handler_upload_thumbnail.go`).

Go strings are modelled by `String` (a wrapper around `List Char`); the
Go standard-library string operations used by the code
(`strings.TrimSpace`, `strings.Contains`, `strings.SplitN(s, ",", 2)`,
`strings.ToLower`) are defined below on the character list.
External collaborators (the AWS presigner, the record store, `ffprobe`,
`ffmpeg`, the multipart reader, the random source) are oracles supplied
as fields of a request context; the handlers are pure functions from
that context to a response paired with a trace of side effects.
-/

/-- `unicode.IsSpace` restricted to the ASCII range (tab, LF, VT, FF,
CR, space) — the characters `strings.TrimSpace` strips in practice. -/
def isSpaceGo (c : Char) : Bool :=
  c = Char.ofNat 32 || c = Char.ofNat 9 || c = Char.ofNat 10 ||
  c = Char.ofNat 11 || c = Char.ofNat 12 || c = Char.ofNat 13

/-- Strip leading and trailing whitespace from a character list. -/
def trimSpaceL (l : List Char) : List Char :=
  ((l.dropWhile isSpaceGo).reverse.dropWhile isSpaceGo).reverse

/-- `strings.TrimSpace`. -/
def trimSpace (s : String) : String :=
  String.mk (trimSpaceL s.data)

/-- Does `pat` occur at the head of `l`? -/
def leadsWith : List Char → List Char → Bool
  | [], _ => true
  | _ :: _, [] => false
  | p :: ps, c :: cs => p = c && leadsWith ps cs

/-- Does `pat` occur anywhere in `hay`? -/
def containsSubL (hay pat : List Char) : Bool :=
  match hay with
  | [] => pat.isEmpty
  | _ :: rest => leadsWith pat hay || containsSubL rest pat

/-- `strings.Contains`. -/
def containsSub (s pat : String) : Bool :=
  containsSubL s.data pat.data

/-- Split a character list at its first comma, if any.  This is exactly
the information content of Go `strings.SplitN(s, ",", 2)`: the result is
`none` when the split yields a single part (no comma), and
`some (before, after)` when it yields two parts. -/
def splitFirstComma : List Char → Option (List Char × List Char)
  | [] => none
  | c :: cs =>
    if c = ',' then some ([], cs)
    else
      match splitFirstComma cs with
      | none => none
      | some (a, b) => some (c :: a, b)

/-- `strings.SplitN(s, ",", 2)` as an optional pair of strings. -/
def splitComma (s : String) : Option (String × String) :=
  match splitFirstComma s.data with
  | none => none
  | some (a, b) => some (String.mk a, String.mk b)

/-- `strings.ToLower` (ASCII). -/
def toLowerStr (s : String) : String :=
  String.mk (s.data.map Char.toLower)

/-- The `database.Video` record (the fields this core reads or writes). -/
structure Video where
  id : String
  userID : String
  title : String
  thumbnailURL : Option String
  videoURL : Option String
deriving DecidableEq, Repr

/-- The distinct `error` values `dbVideoToSignedVideo` can return:
the two `fmt.Errorf` sites and a failure bubbled up from the
presigner. -/
inductive SignErr where
  | malformedRef (raw : String)
  | emptyBucketKey (raw : String)
  | presignFailed (msg : String)
deriving DecidableEq, Repr

/-- The `apiConfig` fields used by this core.  `s3Presign` is the AWS
presign client as an oracle: bucket, key and expiry (in minutes) to
either a URL or an error message. -/
structure ApiConfig where
  s3Bucket : String
  s3Presign : String → String → Nat → Except String String

/-- `generatePresignedURL`: delegates to the presign client with the
given bucket, key and expiry. -/
def generatePresignedURL (cfg : ApiConfig) (bucket key : String)
    (expireMinutes : Nat) : Except String String :=
  cfg.s3Presign bucket key expireMinutes

/-- `(cfg *apiConfig) dbVideoToSignedVideo`: resolve a stored location
reference for reading.  Returns the (possibly rewritten) record and an
optional error, mirroring the Go multiple-return `(database.Video,
error)`. -/
def dbVideoToSignedVideo (cfg : ApiConfig) (video : Video) :
    Video × Option SignErr :=
  match video.videoURL with
  | none => (video, none)
  | some u =>
    if u = "" then (video, none)
    else
      let raw := trimSpace u
      if containsSub raw "://" then (video, none)
      else
        match splitComma raw with
        | none => (video, some (.malformedRef raw))
        | some (b, k) =>
          let bucket := trimSpace b
          let key := trimSpace k
          if bucket = "" ∨ key = "" then (video, some (.emptyBucketKey raw))
          else
            match generatePresignedURL cfg bucket key 15 with
            | .error e => (video, some (.presignFailed e))
            | .ok url => ({ video with videoURL := some url }, none)

/-- The bucket/key extraction performed by `dbVideoToSignedVideo` on a
stored reference (its lines 44–59), as a standalone decoder: `none`
when no compact decode happens (absent, empty, legacy absolute URL, or
malformed), `some (bucket, key)` with both sides trimmed otherwise. -/
def decodeVideoURL (videoURL : Option String) : Option (String × String) :=
  match videoURL with
  | none => none
  | some u =>
    if u = "" then none
    else
      let raw := trimSpace u
      if containsSub raw "://" then none
      else
        match splitComma raw with
        | none => none
        | some (b, k) =>
          let bucket := trimSpace b
          let key := trimSpace k
          if bucket = "" ∨ key = "" then none
          else some (bucket, key)

/-- The encoding of a bucket/key pair persisted by the upload handler:
`fmt.Sprintf("%s,%s", bucket, key)`. -/
def encodeRef (bucket key : String) : String :=
  bucket ++ "," ++ key

/-!
The classifier computes in `float64`, so its arithmetic is modelled as
IEEE-754 binary64: a value is a pair `(m, e) : Int × Int` standing for
the exact rational `m * 2 ^ e` with `2^52 ≤ |m| < 2^53` (or `m = 0`).
Each operation rounds its exact rational result to 53 significant bits,
to nearest, ties to even.  For dimensions in the Go `int` range every
intermediate value lies in the binary64 normal range, so no overflow,
infinity or subnormal ever arises and this per-operation rounding is
the complete semantics of the program's arithmetic.
-/

/-- Smallest shift `t' ≥ t` (fuel-bounded) with `b ≤ a <<< t'`. -/
def upShift (a b : Nat) : Nat → Nat → Nat
  | t, 0 => t
  | t, fuel + 1 => if b ≤ a <<< t then t else upShift a b (t + 1) fuel

/-- Smallest shift `u' ≥ u` (fuel-bounded) with `n < d <<< (53 + u')`. -/
def downShift (n d : Nat) : Nat → Nat → Nat
  | u, 0 => u
  | u, fuel + 1 => if n < d <<< (53 + u) then u else downShift n d (u + 1) fuel

/-- Round the rational `n / d` (`n, d ≥ 0`) to 53 significant bits,
nearest, ties to even: a mantissa `m` with `2^52 ≤ m < 2^53` (or `0`
when `n = 0`) and an exponent `e` such that `m * 2 ^ e` is the binary64
value of `n / d`. -/
def roundPos (n d : Nat) : Nat × Int :=
  if n = 0 then (0, 0)
  else if n < d <<< 52 then
    let t := upShift n (d <<< 52) 0 4096
    let m0 := (n <<< t) / d
    let r := (n <<< t) % d
    let m := if 2 * r < d then m0
             else if d < 2 * r then m0 + 1
             else if m0 % 2 = 0 then m0 else m0 + 1
    if m = 1 <<< 53 then (1 <<< 52, 1 - (t : Int)) else (m, -(t : Int))
  else
    let u := downShift n d 0 4096
    let m0 := n / (d <<< u)
    let r := n % (d <<< u)
    let m := if 2 * r < d <<< u then m0
             else if d <<< u < 2 * r then m0 + 1
             else if m0 % 2 = 0 then m0 else m0 + 1
    if m = 1 <<< 53 then (1 <<< 52, (u : Int) + 1) else (m, (u : Int))

/-- The binary64 value nearest to `num / den`, ties to even. -/
def floatOfRat (num den : Int) : Int × Int :=
  let p := roundPos num.natAbs den.natAbs
  (if (0 ≤ num) = (0 ≤ den) then (p.1 : Int) else -(p.1 : Int), p.2)

/-- Go `float64(x)` on an integer. -/
def floatOfInt (x : Int) : Int × Int :=
  floatOfRat x 1

/-- Binary64 division: the exact quotient rounded to nearest-even. -/
def fdiv (x y : Int × Int) : Int × Int :=
  let p := floatOfRat x.1 y.1
  (p.1, p.2 + x.2 - y.2)

/-- Binary64 subtraction: the exact difference rounded to nearest-even. -/
def fsub (x y : Int × Int) : Int × Int :=
  let em := min x.2 y.2
  let n := x.1 * ((1 <<< (x.2 - em).toNat : Nat) : Int) -
           y.1 * ((1 <<< (y.2 - em).toNat : Nat) : Int)
  let p := floatOfRat n 1
  (p.1, p.2 + em)

/-- `math.Abs`: exact on binary64 values. -/
def fabs (x : Int × Int) : Int × Int :=
  ((x.1.natAbs : Int), x.2)

/-- Binary64 `<=`: exact comparison of the represented rationals. -/
def fle (x y : Int × Int) : Bool :=
  let em := min x.2 y.2
  decide (x.1 * ((1 <<< (x.2 - em).toNat : Nat) : Int) ≤
          y.1 * ((1 <<< (y.2 - em).toNat : Nat) : Int))

/-- The exact rational a binary64 pair stands for. -/
def valF (x : Int × Int) : ℚ :=
  (x.1 : ℚ) * (2 : ℚ) ^ x.2

/-- The binary64 value of the Go constant expression `16.0/9.0`
(untyped constants are exact; rounding happens once on conversion). -/
def c169 : Int × Int := floatOfRat 16 9

/-- The binary64 value of the Go constant expression `9.0/16.0`. -/
def c916 : Int × Int := floatOfRat 9 16

/-- The binary64 value of the Go constant `0.01`. -/
def c001 : Int × Int := floatOfRat 1 100

/-- `almostEqual(a, b, tolerance)` on binary64 values:
`math.Abs(a-b) <= tolerance` with the subtraction rounded to
nearest-even and the absolute value and comparison exact, per
IEEE-754. -/
def almostEqual (a b tol : Int × Int) : Bool :=
  fle (fabs (fsub a b)) tol

/-- One entry of the `ffprobeOutput.Streams` array. -/
structure FfprobeStream where
  width : Int
  height : Int
deriving DecidableEq, Repr

/-- The pure classification tail of `getVideoAspectRatio` (spec §4.2
`classify`), in the program's own arithmetic: the ratio is the binary64
quotient of the converted dimensions, compared against the binary64
constants `16.0/9.0` then `9.0/16.0` with tolerance `0.01`, first match
wins. -/
def aspectFromDims (width height : Int) : String :=
  let r := fdiv (floatOfInt width) (floatOfInt height)
  if almostEqual r c169 c001 then "16:9"
  else if almostEqual r c916 c001 then "9:16"
  else "other"

/-- `getVideoAspectRatio` after `ffprobe` has run and its JSON has been
parsed: the stream checks and the classification. -/
def getVideoAspect (streams : List FfprobeStream) : Except String String :=
  match streams with
  | [] => .error "no streams found"
  | s :: _ =>
    if s.width = 0 || s.height = 0 then
      .error "invalid width or height in video metadata"
    else .ok (aspectFromDims s.width s.height)

/-- `getVideoAspectRatio` end to end, with the `ffprobe` run-and-parse
step supplied as an oracle result. -/
def runGetVideoAspect (probe : Except String (List FfprobeStream)) :
    Except String String :=
  match probe with
  | .error e => .error ("ffprobe failed: " ++ e)
  | .ok streams => getVideoAspect streams

/-- `processVideoForFastStart`: the output path is the input path with
`".processing"` appended; a failing `ffmpeg` run is an error, a
successful one yields the output path. -/
def processVideoForFastStart (ffmpegRun : Except String Unit)
    (filePath : String) : Except String String :=
  match ffmpegRun with
  | .error e => .error ("ffmpeg failed: " ++ e)
  | .ok _ => .ok (filePath ++ ".processing")

/-- The sixteen lowercase hexadecimal digit characters, `0`–`9` then
`a`–`f`, built from their ASCII codes. -/
def hexChars : List Char :=
  (List.range 16).map fun n =>
    if n < 10 then Char.ofNat (48 + n) else Char.ofNat (87 + n)

/-- Digit value to hexadecimal character. -/
def hexDigitChar (n : Nat) : Char :=
  hexChars.getD n (Char.ofNat 48)

/-- `hex.EncodeToString` on a byte list: two digits per byte, high
nibble first. -/
def hexEncodeL : List (Fin 256) → List Char
  | [] => []
  | b :: bs => hexDigitChar (b.val / 16) :: hexDigitChar (b.val % 16) :: hexEncodeL bs

/-- `hex.EncodeToString` as a string. -/
def hexEncode (bs : List (Fin 256)) : String :=
  String.mk (hexEncodeL bs)

/-- Side effects a handler can perform, in order: file creation, file
removal, an object-store put, a record-store update. -/
inductive Effect where
  | create (path : String)
  | remove (path : String)
  | s3Put (bucket key : String)
  | dbUpdate (v : Video)
deriving DecidableEq, Repr

/-- A handler outcome: `respondWithError(status, msg)` or
`respondWithJSON(200, video)`. -/
inductive HandlerResp where
  | err (status : Nat) (msg : String)
  | ok (video : Video)
deriving DecidableEq, Repr

/-- Paths of files created during a trace. -/
def createdPaths (tr : List Effect) : List String :=
  tr.filterMap fun e => match e with | .create p => some p | _ => none

/-- Paths of files removed during a trace. -/
def removedPaths (tr : List Effect) : List String :=
  tr.filterMap fun e => match e with | .remove p => some p | _ => none

/-- Video records written to the record store during a trace. -/
def dbWrites (tr : List Effect) : List Video :=
  tr.filterMap fun e => match e with | .dbUpdate v => some v | _ => none

/-- Bucket/key pairs sent to the object store during a trace. -/
def s3Puts (tr : List Effect) : List (String × String) :=
  tr.filterMap fun e => match e with | .s3Put b k => some (b, k) | _ => none

/-- One upload request with all its external collaborators resolved to
oracles: the parsed path parameter, the bearer token, JWT validation,
the record store, the multipart reader, `mime.ParseMediaType`, the
temp-file allocator, the copy and seek on the temp file, the `ffprobe`
run, the `ffmpeg` run, opening the processed file, the random source,
the object-store put and the record-store update. -/
structure UploadCtx where
  cfg : ApiConfig
  parsedVideoID : Option String
  bearerToken : Except String String
  jwtUserID : String → Except String String
  dbGetVideo : String → Except String Video
  formFileOk : Except String Unit
  contentTypeHeader : String
  parseMediaType : String → Except String String
  createTempResult : Except String String
  copyOk : Except String Unit
  seekOk : Except String Unit
  ffprobeStreams : Except String (List FfprobeStream)
  ffmpegOk : Except String Unit
  openProcessedOk : Except String Unit
  randBytes : Except String (List (Fin 256))
  s3PutOk : Except String Unit
  dbUpdateOk : Except String Unit

/-- `handlerUploadVideo` from the open of the processed file to the
response: key derivation, the object-store put, the record-store update
with the compact reference, and the presign for the response body. -/
def uploadAfterProcessed (ctx : UploadCtx) (video : Video)
    (orientation : String) : HandlerResp × List Effect :=
  match ctx.openProcessedOk with
  | .error _ => (.err 500 "Failed to open processed video", [])
  | .ok _ =>
  match ctx.randBytes with
  | .error _ => (.err 500 "Failed to generate key", [])
  | .ok b =>
  let key := orientation ++ "-" ++ hexEncode b ++ ".mp4"
  match ctx.s3PutOk with
  | .error _ => (.err 502 "failed to upload to s3", [.s3Put ctx.cfg.s3Bucket key])
  | .ok _ =>
  let raw := encodeRef ctx.cfg.s3Bucket key
  let video2 := { video with videoURL := some raw }
  match ctx.dbUpdateOk with
  | .error _ =>
    (.err 500 "failed to update video url",
     [.s3Put ctx.cfg.s3Bucket key, .dbUpdate video2])
  | .ok _ =>
  match dbVideoToSignedVideo ctx.cfg video2 with
  | (_, some _) =>
    (.err 500 "failed to sign video url",
     [.s3Put ctx.cfg.s3Bucket key, .dbUpdate video2])
  | (signed, none) =>
    (.ok signed, [.s3Put ctx.cfg.s3Bucket key, .dbUpdate video2])

/-- `handlerUploadVideo` from just after the temp file exists: copy,
rewind, probe, remux (the remux output is created on remux success and
its removal is deferred), then `uploadAfterProcessed`. -/
def uploadAfterTemp (ctx : UploadCtx) (video : Video) (tmpName : String) :
    HandlerResp × List Effect :=
  match ctx.copyOk with
  | .error _ => (.err 500 "Failed to save file", [])
  | .ok _ =>
  match ctx.seekOk with
  | .error _ => (.err 500 "failed to rewind file", [])
  | .ok _ =>
  match runGetVideoAspect ctx.ffprobeStreams with
  | .error _ => (.err 500 "Failed to get video orientation", [])
  | .ok orientation =>
  match processVideoForFastStart ctx.ffmpegOk tmpName with
  | .error _ => (.err 500 "Failed to process video", [])
  | .ok processedPath =>
  let inner := uploadAfterProcessed ctx video orientation
  (inner.1, .create processedPath :: (inner.2 ++ [.remove processedPath]))

/-- `(cfg *apiConfig) handlerUploadVideo`: the full request, from path
parsing and authentication through ownership and content-type checks,
temp-file creation (whose removal is deferred to every later exit),
and the rest of the pipeline. -/
def handlerUploadVideo (ctx : UploadCtx) : HandlerResp × List Effect :=
  match ctx.parsedVideoID with
  | none => (.err 400 "Invalid ID", [])
  | some videoID =>
  match ctx.bearerToken with
  | .error _ => (.err 401 "Could not find JWT", [])
  | .ok token =>
  match ctx.jwtUserID token with
  | .error _ => (.err 401 "Could not validate JWT", [])
  | .ok userID =>
  match ctx.dbGetVideo videoID with
  | .error _ => (.err 404 "Video not found", [])
  | .ok video =>
  if video.userID ≠ userID then (.err 401 "You do not own this video", [])
  else
  match ctx.formFileOk with
  | .error _ => (.err 400 "Unable to parse form file", [])
  | .ok _ =>
  if ctx.contentTypeHeader = "" then (.err 400 "Missing Content-Type header", [])
  else
  match ctx.parseMediaType ctx.contentTypeHeader with
  | .error _ => (.err 400 "Error getting media type", [])
  | .ok mimeType =>
  if mimeType ≠ "video/mp4" then (.err 400 "Video must be in mp4 format", [])
  else
  match ctx.createTempResult with
  | .error _ => (.err 500 "Unable to create file", [])
  | .ok tmpName =>
  let inner := uploadAfterTemp ctx video tmpName
  (inner.1, .create tmpName :: (inner.2 ++ [.remove tmpName]))

/-- `contentTypeToExt`: lowercase the declared content type and map it
to a file extension, empty when unsupported. -/
def contentTypeToExt (contentType : String) : String :=
  let lc := toLowerStr contentType
  if lc = "image/jpeg" ∨ lc = "image/jpg" then ".jpg"
  else if lc = "image/png" then ".png"
  else if lc = "image/gif" then ".gif"
  else ""

/-- One thumbnail request with its collaborators resolved to oracles. -/
structure ThumbCtx where
  parsedVideoID : Option String
  bearerToken : Except String String
  jwtUserID : String → Except String String
  dbGetVideo : String → Except String Video
  formFileOk : Except String Unit
  contentTypeHeader : String
  parseMediaType : String → Except String String
  assetsRoot : String
  port : String
  createFileOk : Except String Unit
  copyOk : Except String Unit
  dbUpdateOk : Except String Unit

/-- `(cfg *apiConfig) handlerUploadThumbnail`: the full request.
`filepath.Join` is modelled as joining with a single slash. -/
def handlerUploadThumbnail (ctx : ThumbCtx) : HandlerResp × List Effect :=
  match ctx.parsedVideoID with
  | none => (.err 400 "Invalid ID", [])
  | some videoID =>
  match ctx.bearerToken with
  | .error _ => (.err 401 "Could not find JWT", [])
  | .ok token =>
  match ctx.jwtUserID token with
  | .error _ => (.err 401 "Could not validate JWT", [])
  | .ok userID =>
  match ctx.formFileOk with
  | .error _ => (.err 400 "Unable to parse form file", [])
  | .ok _ =>
  if ctx.contentTypeHeader = "" then (.err 400 "Missing Content-Type header", [])
  else
  match ctx.parseMediaType ctx.contentTypeHeader with
  | .error _ => (.err 400 "Error getting media type", [])
  | .ok mimeType =>
  if mimeType ≠ "image/jpeg" ∧ mimeType ≠ "image/png" then
    (.err 400 "Thumbnail must be a jpeg or png", [])
  else
  match ctx.dbGetVideo videoID with
  | .error _ => (.err 404 "Video not found", [])
  | .ok video =>
  if video.userID ≠ userID then (.err 401 "You do not own this video", [])
  else
  let ext := contentTypeToExt ctx.contentTypeHeader
  if ext = "" then (.err 400 "Unsupported Content-Type", [])
  else
  let filename := videoID ++ ext
  let filePath := ctx.assetsRoot ++ "/" ++ filename
  match ctx.createFileOk with
  | .error _ => (.err 500 "Unable to create file", [])
  | .ok _ =>
  match ctx.copyOk with
  | .error _ => (.err 500 "Failed to save file", [.create filePath])
  | .ok _ =>
  let publicURL := "http://localhost:" ++ ctx.port ++ "/assets/" ++ filename
  let video2 := { video with thumbnailURL := some publicURL }
  match ctx.dbUpdateOk with
  | .error _ => (.err 500 "Video update error", [.create filePath, .dbUpdate video2])
  | .ok _ => (.ok video2, [.create filePath, .dbUpdate video2])

/-- A configuration whose presigner always succeeds, for concrete runs. -/
def cfgSig : ApiConfig :=
  { s3Bucket := "tubely",
    s3Presign := fun b k _ => .ok ("https://sign.example/" ++ b ++ "/" ++ k) }

/-- A concrete video record with no location reference. -/
def vidRec : Video :=
  { id := "vid-1", userID := "owner-1", title := "t",
    thumbnailURL := none, videoURL := none }

/-- `vidRec` holding a well-formed compact reference. -/
def vidCompact : Video :=
  { vidRec with videoURL := some "b,k" }

/-- `vidRec` holding a comma-free (hence malformed) reference. -/
def vidNoComma : Video :=
  { vidRec with videoURL := some "nocomma" }

/-- `vidRec` holding a reference with two commas. -/
def vidMultiComma : Video :=
  { vidRec with videoURL := some "bucket,key,extra" }

/-- A fully successful owner upload request on a 1920×1080 stream. -/
def ctxBase : UploadCtx :=
  { cfg := cfgSig,
    parsedVideoID := some "vid-1",
    bearerToken := .ok "tok",
    jwtUserID := fun t => if t = "tok" then .ok "owner-1" else .error "bad token",
    dbGetVideo := fun i => if i = "vid-1" then .ok vidRec else .error "missing",
    formFileOk := .ok (),
    contentTypeHeader := "video/mp4",
    parseMediaType := fun c => .ok c,
    createTempResult := .ok "/tmp/tubely-upload.mp4",
    copyOk := .ok (),
    seekOk := .ok (),
    ffprobeStreams := .ok [{ width := 1920, height := 1080 }],
    ffmpegOk := .ok (),
    openProcessedOk := .ok (),
    randBytes := .ok (List.replicate 32 (0 : Fin 256)),
    s3PutOk := .ok (),
    dbUpdateOk := .ok () }

/-- `ctxBase` with the JWT resolving to a non-owner identity. -/
def ctxNotOwner : UploadCtx :=
  { ctxBase with jwtUserID := fun _ => .ok "intruder" }

/-- A thumbnail request that succeeds end to end with a png. -/
def thumbBase : ThumbCtx :=
  { parsedVideoID := some "vid-1",
    bearerToken := .ok "tok",
    jwtUserID := fun _ => .ok "owner-1",
    dbGetVideo := fun _ => .ok vidRec,
    formFileOk := .ok (),
    contentTypeHeader := "image/png",
    parseMediaType := fun c => .ok c,
    assetsRoot := "assets",
    port := "8091",
    createFileOk := .ok (),
    copyOk := .ok (),
    dbUpdateOk := .ok () }

/-- `thumbBase` declaring a gif. -/
def thumbGif : ThumbCtx :=
  { thumbBase with contentTypeHeader := "image/gif" }

/-- Replace only the presign oracle of a request context. -/
def setPresign (ctx : UploadCtx)
    (p : String → String → Nat → Except String String) : UploadCtx :=
  { ctx with cfg := { ctx.cfg with s3Presign := p } }

theorem dropWhile_length_le (p : Char → Bool) (l : List Char) :
    (l.dropWhile p).length ≤ l.length :=
  (List.dropWhile_suffix p).length_le

theorem dropWhile_eq_self_of_trim (l : List Char) (h : trimSpaceL l = l) :
    l.dropWhile isSpaceGo = l ∧ l.reverse.dropWhile isSpaceGo = l.reverse := by
  unfold trimSpaceL at h
  have hlen : ((l.dropWhile isSpaceGo).reverse.dropWhile isSpaceGo).length = l.length := by
    rw [← congrArg List.length h]
    simp
  have h1 : ((l.dropWhile isSpaceGo).reverse.dropWhile isSpaceGo).length ≤
      (l.dropWhile isSpaceGo).length := by
    have := dropWhile_length_le isSpaceGo (l.dropWhile isSpaceGo).reverse
    simpa using this
  have h2 : (l.dropWhile isSpaceGo).length ≤ l.length := dropWhile_length_le _ _
  have haeq : l.dropWhile isSpaceGo = l :=
    (List.dropWhile_suffix _).eq_of_length (by omega)
  refine ⟨haeq, ?_⟩
  rw [haeq] at h
  have : (l.reverse.dropWhile isSpaceGo).reverse.reverse = l.reverse :=
    congrArg List.reverse h
  simpa using this

theorem head_not_space {l : List Char} {c : Char} {cs : List Char}
    (h : l.dropWhile isSpaceGo = l) (he : l = c :: cs) : isSpaceGo c = false := by
  subst he
  by_contra hc
  rw [Bool.not_eq_false] at hc
  rw [List.dropWhile_cons, if_pos hc] at h
  have h1 := dropWhile_length_le isSpaceGo cs
  have h2 := congrArg List.length h
  simp at h2
  omega

theorem trimSpaceL_concat (b k : List Char) (hb : trimSpaceL b = b)
    (hk : trimSpaceL k = k) (hbne : b ≠ []) (hkne : k ≠ []) :
    trimSpaceL (b ++ ',' :: k) = b ++ ',' :: k := by
  obtain ⟨hb1, _⟩ := dropWhile_eq_self_of_trim b hb
  obtain ⟨_, hk2⟩ := dropWhile_eq_self_of_trim k hk
  obtain ⟨c, cs, hbc⟩ : ∃ c cs, b = c :: cs := by
    cases b with
    | nil => exact absurd rfl hbne
    | cons x xs => exact ⟨x, xs, rfl⟩
  have hc : isSpaceGo c = false := head_not_space hb1 hbc
  obtain ⟨d, ds, hkd⟩ : ∃ d ds, k.reverse = d :: ds := by
    cases hkr : k.reverse with
    | nil => exact absurd (by simpa using congrArg List.reverse hkr) hkne
    | cons x xs => exact ⟨x, xs, rfl⟩
  have hd : isSpaceGo d = false := head_not_space hk2 hkd
  have s1 : (b ++ ',' :: k).dropWhile isSpaceGo = b ++ ',' :: k := by
    rw [hbc]
    simp [List.dropWhile_cons, hc]
  have s2 : (b ++ ',' :: k).reverse = k.reverse ++ ',' :: b.reverse := by
    simp
  have s3 : (k.reverse ++ ',' :: b.reverse).dropWhile isSpaceGo =
      k.reverse ++ ',' :: b.reverse := by
    rw [hkd]
    simp [List.dropWhile_cons, hd]
  unfold trimSpaceL
  rw [s1, s2, s3, ← s2, List.reverse_reverse]

theorem splitFirstComma_concat (b k : List Char) (hb : ',' ∉ b) :
    splitFirstComma (b ++ ',' :: k) = some (b, k) := by
  induction b with
  | nil => simp [splitFirstComma]
  | cons c cs ih =>
    have hc : ¬ c = ',' := fun h => hb (by simp [h])
    have hcs : ',' ∉ cs := fun h => hb (List.mem_cons_of_mem _ h)
    simp [splitFirstComma, hc, ih hcs]

/-- C1: `dbVideoToSignedVideo` resolves a stored location reference as
follows: an absent or empty reference leaves the record unchanged; a
whitespace-trimmed reference containing the scheme delimiter `"://"`
leaves the record unchanged; otherwise the reference is split on its
first comma with both sides trimmed, a missing comma is a
malformed-reference failure, an empty trimmed side is a
malformed-reference failure, and otherwise the record comes back with
the reference replaced by the presigned URL for that bucket and key
with the fixed 15-minute validity window. -/
theorem resolveForRead_spec (cfg : ApiConfig) (video : Video) :
    (video.videoURL = none → dbVideoToSignedVideo cfg video = (video, none)) ∧
    (video.videoURL = some "" → dbVideoToSignedVideo cfg video = (video, none)) ∧
    (∀ u, video.videoURL = some u → containsSub (trimSpace u) "://" = true →
      dbVideoToSignedVideo cfg video = (video, none)) ∧
    (∀ u, video.videoURL = some u → u ≠ "" →
      containsSub (trimSpace u) "://" = false →
      (splitComma (trimSpace u) = none →
        dbVideoToSignedVideo cfg video =
          (video, some (.malformedRef (trimSpace u)))) ∧
      (∀ b k, splitComma (trimSpace u) = some (b, k) →
        (trimSpace b = "" ∨ trimSpace k = "" →
          dbVideoToSignedVideo cfg video =
            (video, some (.emptyBucketKey (trimSpace u)))) ∧
        (trimSpace b ≠ "" → trimSpace k ≠ "" →
          dbVideoToSignedVideo cfg video =
            match cfg.s3Presign (trimSpace b) (trimSpace k) 15 with
            | .ok url => ({ video with videoURL := some url }, none)
            | .error e => (video, some (.presignFailed e))))) := by
  refine ⟨?_, ?_, ?_, ?_⟩
  · intro h
    simp [dbVideoToSignedVideo, h]
  · intro h
    simp [dbVideoToSignedVideo, h]
  · intro u hu hcon
    have hne : u ≠ "" := by
      rintro rfl
      simp [containsSub, trimSpace, trimSpaceL, containsSubL] at hcon
    simp [dbVideoToSignedVideo, hu, hne, hcon]
  · intro u hu hne hcon
    constructor
    · intro hsp
      simp [dbVideoToSignedVideo, hu, hne, hcon, hsp]
    · intro b k hsp
      constructor
      · intro hek
        simp only [dbVideoToSignedVideo, hu]
        rw [if_neg hne]
        simp only [hcon, Bool.false_eq_true, if_false, hsp]
        rw [if_pos hek]
      · intro hb hk
        simp only [dbVideoToSignedVideo, hu]
        rw [if_neg hne]
        simp only [hcon, Bool.false_eq_true, if_false, hsp]
        rw [if_neg (by tauto)]
        cases hp : cfg.s3Presign (trimSpace b) (trimSpace k) 15 with
        | error e => simp [generatePresignedURL, hp]
        | ok url => simp [generatePresignedURL, hp]

/-- C1 witness: a well-formed compact reference resolves to the
presigner's URL for its bucket and key. -/
theorem resolveForRead_spec_witness :
    dbVideoToSignedVideo cfgSig vidCompact =
      ({ vidRec with videoURL := some "https://sign.example/b/k" }, none) := by
  have h := ((resolveForRead_spec cfgSig vidCompact).2.2.2 "b,k" (by decide)
      (by decide) (by decide)).2 "b" "k" (by decide)
  have h2 := h.2 (by decide) (by decide)
  simpa using h2

/-- C10: whenever `dbVideoToSignedVideo` reports an error, the record it
returns alongside the error is the input record unchanged. -/
theorem signVideo_error_leaves_unchanged (cfg : ApiConfig) (video : Video)
    (e : SignErr) (h : (dbVideoToSignedVideo cfg video).2 = some e) :
    (dbVideoToSignedVideo cfg video).1 = video := by
  revert h
  simp only [dbVideoToSignedVideo]
  split
  · intro h
    simp at h
  · split
    · intro h
      simp at h
    · split
      · intro h
        simp at h
      · split
        · intro _
          rfl
        · split
          · intro _
            rfl
          · split
            · intro _
              rfl
            · intro h
              simp at h

/-- C10 witness: a comma-free reference errors and the record field is
untouched. -/
theorem signVideo_error_leaves_unchanged_witness :
    (dbVideoToSignedVideo cfgSig vidNoComma).1 = vidNoComma :=
  signVideo_error_leaves_unchanged cfgSig vidNoComma
    (.malformedRef "nocomma") (by decide)

/-- C3 counterexample: the reference `"bucket,key,extra"` contains two
commas, yet resolve-for-read does not reject it: it splits on the first
comma only, takes `"key,extra"` as the key, and presigns successfully. -/
theorem multiComma_not_rejected :
    (dbVideoToSignedVideo cfgSig vidMultiComma).2 = none ∧
    (dbVideoToSignedVideo cfgSig vidMultiComma).1.videoURL =
      some "https://sign.example/bucket/key,extra" := by
  constructor
  · decide
  · decide

/-- C3 as amended: a stored compact reference (non-empty, no scheme
delimiter) is rejected with a malformed-reference error exactly when it
contains no comma at all, or the trimmed part before its first comma or
the trimmed remainder after it is empty.  A reference with more than
one comma is accepted, all text after the first comma becoming the
key. -/
theorem compactRef_malformed_iff (cfg : ApiConfig) (video : Video) (u : String)
    (hu : video.videoURL = some u) (hne : u ≠ "")
    (hcon : containsSub (trimSpace u) "://" = false) :
    ((dbVideoToSignedVideo cfg video).2 = some (.malformedRef (trimSpace u)) ∨
     (dbVideoToSignedVideo cfg video).2 = some (.emptyBucketKey (trimSpace u))) ↔
    ¬ (∃ b k, splitComma (trimSpace u) = some (b, k) ∧
        trimSpace b ≠ "" ∧ trimSpace k ≠ "") := by
  cases hsp : splitComma (trimSpace u) with
  | none =>
    have hrun : dbVideoToSignedVideo cfg video =
        (video, some (.malformedRef (trimSpace u))) := by
      simp [dbVideoToSignedVideo, hu, hne, hcon, hsp]
    rw [hrun]
    simp
  | some bk =>
    obtain ⟨b, k⟩ := bk
    by_cases hb : trimSpace b = ""
    · have hrun : dbVideoToSignedVideo cfg video =
          (video, some (.emptyBucketKey (trimSpace u))) := by
        simp [dbVideoToSignedVideo, hu, hne, hcon, hsp, hb]
      rw [hrun]
      simp [hb]
    · by_cases hk : trimSpace k = ""
      · have hrun : dbVideoToSignedVideo cfg video =
            (video, some (.emptyBucketKey (trimSpace u))) := by
          simp [dbVideoToSignedVideo, hu, hne, hcon, hsp, hk]
        rw [hrun]
        simp [hk]
      · cases hp : cfg.s3Presign (trimSpace b) (trimSpace k) 15 with
        | error e =>
          have hrun : dbVideoToSignedVideo cfg video =
              (video, some (.presignFailed e)) := by
            simp [dbVideoToSignedVideo, hu, hne, hcon, hsp, hb, hk,
              generatePresignedURL, hp]
          rw [hrun]
          simp [hb, hk]
        | ok url =>
          have hrun : dbVideoToSignedVideo cfg video =
              ({ video with videoURL := some url }, none) := by
            simp [dbVideoToSignedVideo, hu, hne, hcon, hsp, hb, hk,
              generatePresignedURL, hp]
          rw [hrun]
          simp [hb, hk]

/-- C3 witness: a comma-free reference is rejected as malformed. -/
theorem compactRef_malformed_iff_witness :
    ((dbVideoToSignedVideo cfgSig vidNoComma).2 =
        some (.malformedRef (trimSpace "nocomma")) ∨
     (dbVideoToSignedVideo cfgSig vidNoComma).2 =
        some (.emptyBucketKey (trimSpace "nocomma"))) ↔
    ¬ (∃ b k, splitComma (trimSpace "nocomma") = some (b, k) ∧
        trimSpace b ≠ "" ∧ trimSpace k ≠ "") :=
  compactRef_malformed_iff cfgSig vidNoComma "nocomma" (by decide)
    (by decide) (by decide)

/-- C4 counterexample: for `bucket = " a"` (non-empty, comma-free) and
`key = "b"`, decoding the encoded pair yields the trimmed pair
`("a", "b")`, not `(" a", "b")`: the round trip fails as stated. -/
theorem roundTrip_fails_on_whitespace :
    decodeVideoURL (some (encodeRef " a" "b")) ≠ some (" a", "b") ∧
    decodeVideoURL (some (encodeRef " a" "b")) = some ("a", "b") := by
  constructor
  · decide
  · decide

/-- C4 as amended: encoding then decoding recovers the pair for all
non-empty comma-free `bucket` and `key` that additionally carry no
surrounding whitespace (each equals its own trim) and whose encoded
form contains no scheme delimiter. -/
theorem encodeDecode_roundTrip (bucket key : String)
    (h1 : bucket ≠ "") (h2 : key ≠ "")
    (h3 : ',' ∉ bucket.data) (h4 : ',' ∉ key.data)
    (h5 : trimSpace bucket = bucket) (h6 : trimSpace key = key)
    (h7 : containsSub (encodeRef bucket key) "://" = false) :
    decodeVideoURL (some (encodeRef bucket key)) = some (bucket, key) := by
  have hdata : (encodeRef bucket key).data = bucket.data ++ ',' :: key.data := by
    have e1 : (encodeRef bucket key).data = bucket.data ++ [','] ++ key.data := rfl
    rw [e1, List.append_assoc]
    rfl
  have hbne : bucket.data ≠ [] := by
    intro h
    exact h1 (by cases bucket; simp_all)
  have hkne : key.data ≠ [] := by
    intro h
    exact h2 (by cases key; simp_all)
  have hb5 : trimSpaceL bucket.data = bucket.data := congrArg String.data h5
  have hk6 : trimSpaceL key.data = key.data := congrArg String.data h6
  have htrim : trimSpace (encodeRef bucket key) = encodeRef bucket key := by
    show String.mk (trimSpaceL (encodeRef bucket key).data) = encodeRef bucket key
    rw [hdata, trimSpaceL_concat _ _ hb5 hk6 hbne hkne, ← hdata]
  have hne : encodeRef bucket key ≠ "" := by
    intro h
    have := congrArg String.data h
    rw [hdata] at this
    simp at this
  have hsp : splitComma (encodeRef bucket key) = some (bucket, key) := by
    show (match splitFirstComma (encodeRef bucket key).data with
      | none => none
      | some (a, b) => some (String.mk a, String.mk b)) = some (bucket, key)
    rw [hdata, splitFirstComma_concat _ _ h3]
  simp only [decodeVideoURL]
  rw [if_neg hne, htrim, h7]
  simp only [Bool.false_eq_true, if_false, hsp]
  rw [h5, h6, if_neg (by tauto)]

/-- C4 witness: the round trip holds at `("mybucket", "abc123.mp4")`. -/
theorem encodeDecode_roundTrip_witness :
    decodeVideoURL (some (encodeRef "mybucket" "abc123.mp4")) =
      some ("mybucket", "abc123.mp4") :=
  encodeDecode_roundTrip "mybucket" "abc123.mp4" (by decide) (by decide)
    (by decide) (by decide) (by decide) (by decide) (by decide)

theorem shiftCast (m e em : Int) (h : 0 ≤ e - em) :
    ((m * ((1 <<< (e - em).toNat : Nat) : Int) : Int) : ℚ) =
      (m : ℚ) * (2 : ℚ) ^ e / (2 : ℚ) ^ em := by
  have hk : (((e - em).toNat : ℤ)) = e - em := Int.toNat_of_nonneg h
  have hs : ((1 <<< (e - em).toNat : Nat) : Int) =
      (2 : ℤ) ^ ((e - em).toNat) := by
    rw [Nat.shiftLeft_eq, one_mul]
    push_cast
    rfl
  rw [hs]
  push_cast
  rw [← zpow_natCast (2 : ℚ) ((e - em).toNat), hk,
    zpow_sub₀ (by norm_num : (2 : ℚ) ≠ 0)]
  ring

theorem fle_iff (x y : Int × Int) : fle x y = true ↔ valF x ≤ valF y := by
  obtain ⟨m1, e1⟩ := x
  obtain ⟨m2, e2⟩ := y
  have hmin1 : 0 ≤ e1 - min e1 e2 := by
    have := min_le_left e1 e2
    omega
  have hmin2 : 0 ≤ e2 - min e1 e2 := by
    have := min_le_right e1 e2
    omega
  have hpos : (0 : ℚ) < (2 : ℚ) ^ (min e1 e2) :=
    zpow_pos (by norm_num) _
  unfold fle valF
  rw [decide_eq_true_eq]
  dsimp only
  rw [← @Int.cast_le ℚ, shiftCast m1 e1 (min e1 e2) hmin1,
    shiftCast m2 e2 (min e1 e2) hmin2, div_le_div_iff_of_pos_right hpos]

theorem valF_fabs (x : Int × Int) : valF (fabs x) = |valF x| := by
  obtain ⟨m, e⟩ := x
  unfold fabs valF
  dsimp only
  rw [abs_mul, abs_of_pos (zpow_pos (by norm_num : (0 : ℚ) < 2) e)]
  congr 1
  simp [Int.cast_natAbs]

theorem almostEqual_true_iff (a b tol : Int × Int) :
    almostEqual a b tol = true ↔ |valF (fsub a b)| ≤ valF tol := by
  unfold almostEqual
  rw [fle_iff, valF_fabs]

/-- The model rounds `16/9` to the binary64 value
`8006399337547548 · 2^-52`, pinning it to the IEEE double. -/
theorem c169_eq : c169 = (8006399337547548, -52) := by decide

/-- The model rounds `9/16` to the (exact) binary64 value
`5066549580791808 · 2^-53`. -/
theorem c916_eq : c916 = (5066549580791808, -53) := by decide

/-- The model rounds `1/100` to the binary64 value
`5764607523034235 · 2^-59`, pinning it to the IEEE double `0.01`. -/
theorem c001_eq : c001 = (5764607523034235, -59) := by decide

/-- C2 counterexample: at 1609 × 900 the exact offset from 16/9 is
exactly 1/100 — inside the claimed tolerance — yet the program, which
compares in binary64, classifies the dimensions as `"other"`: the
claimed iff fails at this input. -/
theorem aspectClassify_exact_boundary :
    |((1609 : Int) : ℚ) / ((900 : Int) : ℚ) - 16 / 9| ≤ 1 / 100 ∧
    aspectFromDims 1609 900 ≠ "16:9" ∧
    aspectFromDims 1609 900 = "other" :=
  ⟨by norm_num [abs_le], by decide, by decide⟩

/-- C2 as amended: the classifier performs its tolerance comparisons in
IEEE-754 binary64 — the ratio is the binary64 quotient of the converted
dimensions, the comparands the binary64 values of `16.0/9.0`,
`9.0/16.0` and `0.01`, and the subtraction inside `almostEqual` rounds
to nearest-even.  For nonzero height it answers `"16:9"` exactly when
the binary64 evaluation of `|ratio - 16/9|` is at most the binary64
`0.01` (stated over the exact rational values of those floats), failing
that `"9:16"` under the corresponding `9/16` comparison, failing both
`"other"`, in that order, with no other output. -/
theorem aspectClassify_float_spec (w h : Int) (hh : h ≠ 0) :
    (aspectFromDims w h = "16:9" ↔
      |valF (fsub (fdiv (floatOfInt w) (floatOfInt h)) c169)| ≤ valF c001) ∧
    (aspectFromDims w h = "9:16" ↔
      (¬ |valF (fsub (fdiv (floatOfInt w) (floatOfInt h)) c169)| ≤ valF c001 ∧
       |valF (fsub (fdiv (floatOfInt w) (floatOfInt h)) c916)| ≤ valF c001)) ∧
    (aspectFromDims w h = "other" ↔
      (¬ |valF (fsub (fdiv (floatOfInt w) (floatOfInt h)) c169)| ≤ valF c001 ∧
       ¬ |valF (fsub (fdiv (floatOfInt w) (floatOfInt h)) c916)| ≤ valF c001)) ∧
    (aspectFromDims w h = "16:9" ∨ aspectFromDims w h = "9:16" ∨
     aspectFromDims w h = "other") := by
  by_cases h1 :
      |valF (fsub (fdiv (floatOfInt w) (floatOfInt h)) c169)| ≤ valF c001
  · have e1 : almostEqual (fdiv (floatOfInt w) (floatOfInt h)) c169 c001 =
        true := (almostEqual_true_iff _ _ _).mpr h1
    have ha : aspectFromDims w h = "16:9" := by
      simp only [aspectFromDims]
      rw [e1]
      rfl
    rw [ha]
    exact ⟨iff_of_true rfl h1,
      iff_of_false (by simp) (fun hc => hc.1 h1),
      iff_of_false (by simp) (fun hc => hc.1 h1),
      Or.inl rfl⟩
  · have e1 : almostEqual (fdiv (floatOfInt w) (floatOfInt h)) c169 c001 =
        false := by
      cases hb : almostEqual (fdiv (floatOfInt w) (floatOfInt h)) c169 c001 with
      | false => rfl
      | true => exact absurd ((almostEqual_true_iff _ _ _).mp hb) h1
    by_cases h2 :
        |valF (fsub (fdiv (floatOfInt w) (floatOfInt h)) c916)| ≤ valF c001
    · have e2 : almostEqual (fdiv (floatOfInt w) (floatOfInt h)) c916 c001 =
          true := (almostEqual_true_iff _ _ _).mpr h2
      have ha : aspectFromDims w h = "9:16" := by
        simp only [aspectFromDims]
        rw [e1, e2]
        rfl
      rw [ha]
      exact ⟨iff_of_false (by simp) h1,
        iff_of_true rfl ⟨h1, h2⟩,
        iff_of_false (by simp) (fun hc => hc.2 h2),
        Or.inr (Or.inl rfl)⟩
    · have e2 : almostEqual (fdiv (floatOfInt w) (floatOfInt h)) c916 c001 =
          false := by
        cases hb : almostEqual (fdiv (floatOfInt w) (floatOfInt h)) c916 c001 with
        | false => rfl
        | true => exact absurd ((almostEqual_true_iff _ _ _).mp hb) h2
      have ha : aspectFromDims w h = "other" := by
        simp only [aspectFromDims]
        rw [e1, e2]
        rfl
      rw [ha]
      exact ⟨iff_of_false (by simp) h1,
        iff_of_false (by simp) (fun hc => h2 hc.2),
        iff_of_true rfl ⟨h1, h2⟩,
        Or.inr (Or.inr rfl)⟩

/-- C2 witness: the amended property instantiated at 1920 × 1080. -/
theorem aspectClassify_float_spec_witness :
    aspectFromDims 1920 1080 = "16:9" ↔
      |valF (fsub (fdiv (floatOfInt 1920) (floatOfInt 1080)) c169)| ≤
        valF c001 :=
  (aspectClassify_float_spec 1920 1080 (by decide)).1

theorem aspect_1920_1080 : aspectFromDims 1920 1080 = "16:9" := by
  decide

theorem aspectFromDims_mem (w h : Int) :
    aspectFromDims w h = "16:9" ∨ aspectFromDims w h = "9:16" ∨
    aspectFromDims w h = "other" := by
  dsimp only [aspectFromDims]
  split
  · exact Or.inl rfl
  · split
    · exact Or.inr (Or.inl rfl)
    · exact Or.inr (Or.inr rfl)

theorem runGetVideoAspect_mem (probe : Except String (List FfprobeStream))
    (o : String) (h : runGetVideoAspect probe = .ok o) :
    o = "16:9" ∨ o = "9:16" ∨ o = "other" := by
  cases probe with
  | error e => simp [runGetVideoAspect] at h
  | ok streams =>
    cases streams with
    | nil => simp [runGetVideoAspect, getVideoAspect] at h
    | cons s rest =>
      simp only [runGetVideoAspect, getVideoAspect] at h
      split at h
      · simp at h
      · obtain rfl : aspectFromDims s.width s.height = o := by
          simpa using h
        exact aspectFromDims_mem _ _

theorem hexEncodeL_length (bs : List (Fin 256)) :
    (hexEncodeL bs).length = 2 * bs.length := by
  induction bs with
  | nil => rfl
  | cons b rest ih =>
    simp [hexEncodeL, ih]
    omega

theorem hexDigitChar_mem_of_lt {n : Nat} (h : n < 16) :
    hexDigitChar n ∈ hexChars := by
  have : ∀ m : Fin 16, hexDigitChar m.val ∈ hexChars := by decide
  exact this ⟨n, h⟩

theorem hexEncodeL_mem (bs : List (Fin 256)) :
    ∀ c ∈ hexEncodeL bs, c ∈ hexChars := by
  induction bs with
  | nil => intro c hc; simp [hexEncodeL] at hc
  | cons b rest ih =>
    intro c hc
    simp only [hexEncodeL, List.mem_cons] at hc
    rcases hc with rfl | rfl | hc
    · exact hexDigitChar_mem_of_lt
        ((Nat.div_lt_iff_lt_mul (by norm_num)).2 b.isLt)
    · exact hexDigitChar_mem_of_lt (Nat.mod_lt _ (by norm_num))
    · exact ih c hc

/-- C6: when the authenticated requester is not the record's owner, the
upload handler answers 401 with an empty effect trace: no temp file, no
object-store put, no record write. -/
theorem ownership_guard_no_effects (ctx : UploadCtx)
    (videoID token userID : String) (video : Video)
    (h1 : ctx.parsedVideoID = some videoID)
    (h2 : ctx.bearerToken = .ok token)
    (h3 : ctx.jwtUserID token = .ok userID)
    (h4 : ctx.dbGetVideo videoID = .ok video)
    (h5 : video.userID ≠ userID) :
    handlerUploadVideo ctx = (.err 401 "You do not own this video", []) ∧
    createdPaths (handlerUploadVideo ctx).2 = [] ∧
    s3Puts (handlerUploadVideo ctx).2 = [] ∧
    dbWrites (handlerUploadVideo ctx).2 = [] := by
  have hrun : handlerUploadVideo ctx =
      (.err 401 "You do not own this video", []) := by
    simp [handlerUploadVideo, h1, h2, h3, h4, h5]
  exact ⟨hrun, by rw [hrun]; rfl, by rw [hrun]; rfl, by rw [hrun]; rfl⟩

/-- C6 witness: a non-owner request on the base fixture. -/
theorem ownership_guard_no_effects_witness :
    handlerUploadVideo ctxNotOwner =
      (.err 401 "You do not own this video", []) ∧
    createdPaths (handlerUploadVideo ctxNotOwner).2 = [] ∧
    s3Puts (handlerUploadVideo ctxNotOwner).2 = [] ∧
    dbWrites (handlerUploadVideo ctxNotOwner).2 = [] :=
  ownership_guard_no_effects ctxNotOwner "vid-1" "tok" "intruder" vidRec
    rfl rfl rfl rfl (by decide)

theorem afterProcessed_no_files (ctx : UploadCtx) (video : Video)
    (orientation : String) :
    createdPaths (uploadAfterProcessed ctx video orientation).2 = [] ∧
    removedPaths (uploadAfterProcessed ctx video orientation).2 = [] := by
  unfold uploadAfterProcessed
  constructor <;> (dsimp only; repeat' split) <;> rfl

theorem afterTemp_cleanup (ctx : UploadCtx) (video : Video) (tmp : String) :
    removedPaths (uploadAfterTemp ctx video tmp).2 =
      (createdPaths (uploadAfterTemp ctx video tmp).2).reverse := by
  unfold uploadAfterTemp
  cases ctx.copyOk with
  | error e => rfl
  | ok u =>
    cases ctx.seekOk with
    | error e => rfl
    | ok u2 =>
      cases runGetVideoAspect ctx.ffprobeStreams with
      | error e => rfl
      | ok orientation =>
        cases processVideoForFastStart ctx.ffmpegOk tmp with
        | error e => rfl
        | ok pp =>
          obtain ⟨hc, hr⟩ := afterProcessed_no_files ctx video orientation
          dsimp only
          simp only [createdPaths, removedPaths, List.filterMap_cons,
            List.filterMap_append] at hc hr ⊢
          simp [hc, hr]

/-- C7: on every exit path of the upload handler, the files removed are
exactly the files created (in reverse order of creation): no temporary
file survives the request, including the remuxed output. -/
theorem tempfile_cleanup (ctx : UploadCtx) :
    removedPaths (handlerUploadVideo ctx).2 =
      (createdPaths (handlerUploadVideo ctx).2).reverse := by
  unfold handlerUploadVideo
  cases ctx.parsedVideoID with
  | none => rfl
  | some videoID =>
  try dsimp only
  cases ctx.bearerToken with
  | error e => rfl
  | ok token =>
  try dsimp only
  cases ctx.jwtUserID token with
  | error e => rfl
  | ok userID =>
  try dsimp only
  cases ctx.dbGetVideo videoID with
  | error e => rfl
  | ok video =>
  try dsimp only
  by_cases hown : video.userID ≠ userID
  · rw [if_pos hown]
    rfl
  · rw [if_neg hown]
    try dsimp only
    cases ctx.formFileOk with
    | error e => rfl
    | ok u =>
    try dsimp only
    by_cases hct : ctx.contentTypeHeader = ""
    · rw [if_pos hct]
      rfl
    · rw [if_neg hct]
      try dsimp only
      cases ctx.parseMediaType ctx.contentTypeHeader with
      | error e => rfl
      | ok mimeType =>
      try dsimp only
      by_cases hmt : mimeType ≠ "video/mp4"
      · rw [if_pos hmt]
        rfl
      · rw [if_neg hmt]
        try dsimp only
        cases ctx.createTempResult with
        | error e => rfl
        | ok tmp =>
          have ht := afterTemp_cleanup ctx video tmp
          try dsimp only
          simp only [createdPaths, removedPaths, List.filterMap_cons,
            List.filterMap_append] at ht ⊢
          simp [ht]

theorem setPresign_parsedVideoID (ctx : UploadCtx) (p : String → String → Nat → Except String String) :
    (setPresign ctx p).parsedVideoID = ctx.parsedVideoID := rfl

theorem setPresign_bearerToken (ctx : UploadCtx) (p : String → String → Nat → Except String String) :
    (setPresign ctx p).bearerToken = ctx.bearerToken := rfl

theorem setPresign_jwtUserID (ctx : UploadCtx) (p : String → String → Nat → Except String String) :
    (setPresign ctx p).jwtUserID = ctx.jwtUserID := rfl

theorem setPresign_dbGetVideo (ctx : UploadCtx) (p : String → String → Nat → Except String String) :
    (setPresign ctx p).dbGetVideo = ctx.dbGetVideo := rfl

theorem setPresign_formFileOk (ctx : UploadCtx) (p : String → String → Nat → Except String String) :
    (setPresign ctx p).formFileOk = ctx.formFileOk := rfl

theorem setPresign_contentTypeHeader (ctx : UploadCtx) (p : String → String → Nat → Except String String) :
    (setPresign ctx p).contentTypeHeader = ctx.contentTypeHeader := rfl

theorem setPresign_parseMediaType (ctx : UploadCtx) (p : String → String → Nat → Except String String) :
    (setPresign ctx p).parseMediaType = ctx.parseMediaType := rfl

theorem setPresign_createTempResult (ctx : UploadCtx) (p : String → String → Nat → Except String String) :
    (setPresign ctx p).createTempResult = ctx.createTempResult := rfl

theorem setPresign_copyOk (ctx : UploadCtx) (p : String → String → Nat → Except String String) :
    (setPresign ctx p).copyOk = ctx.copyOk := rfl

theorem setPresign_seekOk (ctx : UploadCtx) (p : String → String → Nat → Except String String) :
    (setPresign ctx p).seekOk = ctx.seekOk := rfl

theorem setPresign_ffprobeStreams (ctx : UploadCtx) (p : String → String → Nat → Except String String) :
    (setPresign ctx p).ffprobeStreams = ctx.ffprobeStreams := rfl

theorem setPresign_ffmpegOk (ctx : UploadCtx) (p : String → String → Nat → Except String String) :
    (setPresign ctx p).ffmpegOk = ctx.ffmpegOk := rfl

theorem setPresign_openProcessedOk (ctx : UploadCtx) (p : String → String → Nat → Except String String) :
    (setPresign ctx p).openProcessedOk = ctx.openProcessedOk := rfl

theorem setPresign_randBytes (ctx : UploadCtx) (p : String → String → Nat → Except String String) :
    (setPresign ctx p).randBytes = ctx.randBytes := rfl

theorem setPresign_s3PutOk (ctx : UploadCtx) (p : String → String → Nat → Except String String) :
    (setPresign ctx p).s3PutOk = ctx.s3PutOk := rfl

theorem setPresign_dbUpdateOk (ctx : UploadCtx) (p : String → String → Nat → Except String String) :
    (setPresign ctx p).dbUpdateOk = ctx.dbUpdateOk := rfl

theorem setPresign_s3Bucket (ctx : UploadCtx) (p : String → String → Nat → Except String String) :
    (setPresign ctx p).cfg.s3Bucket = ctx.cfg.s3Bucket := rfl

theorem afterProcessed_trace_presign_free (ctx : UploadCtx)
    (p : String → String → Nat → Except String String) (video : Video)
    (orientation : String) :
    (uploadAfterProcessed (setPresign ctx p) video orientation).2 =
    (uploadAfterProcessed ctx video orientation).2 := by
  unfold uploadAfterProcessed
  simp only [setPresign_openProcessedOk, setPresign_randBytes,
    setPresign_s3PutOk, setPresign_dbUpdateOk, setPresign_s3Bucket]
  cases ctx.openProcessedOk with
  | error e => rfl
  | ok u =>
  cases ctx.randBytes with
  | error e => rfl
  | ok bs =>
  try dsimp only
  cases ctx.s3PutOk with
  | error e => rfl
  | ok u2 =>
  try dsimp only
  cases ctx.dbUpdateOk with
  | error e => rfl
  | ok u3 =>
  try dsimp only
  split <;> split <;> rfl

theorem afterTemp_trace_presign_free (ctx : UploadCtx)
    (p : String → String → Nat → Except String String) (video : Video)
    (tmp : String) :
    (uploadAfterTemp (setPresign ctx p) video tmp).2 =
    (uploadAfterTemp ctx video tmp).2 := by
  unfold uploadAfterTemp
  simp only [setPresign_copyOk, setPresign_seekOk, setPresign_ffprobeStreams,
    setPresign_ffmpegOk]
  cases ctx.copyOk with
  | error e => rfl
  | ok u =>
  cases ctx.seekOk with
  | error e => rfl
  | ok u2 =>
  try dsimp only
  cases runGetVideoAspect ctx.ffprobeStreams with
  | error e => rfl
  | ok orientation =>
  try dsimp only
  cases processVideoForFastStart ctx.ffmpegOk tmp with
  | error e => rfl
  | ok pp =>
  try dsimp only
  rw [afterProcessed_trace_presign_free]

theorem handler_trace_presign_free (ctx : UploadCtx)
    (p : String → String → Nat → Except String String) :
    (handlerUploadVideo (setPresign ctx p)).2 = (handlerUploadVideo ctx).2 := by
  unfold handlerUploadVideo
  simp only [setPresign_parsedVideoID, setPresign_bearerToken,
    setPresign_jwtUserID, setPresign_dbGetVideo, setPresign_formFileOk,
    setPresign_contentTypeHeader, setPresign_parseMediaType,
    setPresign_createTempResult]
  cases ctx.parsedVideoID with
  | none => rfl
  | some videoID =>
  try dsimp only
  cases ctx.bearerToken with
  | error e => rfl
  | ok token =>
  try dsimp only
  cases ctx.jwtUserID token with
  | error e => rfl
  | ok userID =>
  try dsimp only
  cases ctx.dbGetVideo videoID with
  | error e => rfl
  | ok video =>
  try dsimp only
  by_cases hown : video.userID ≠ userID
  · rw [if_pos hown, if_pos hown]
  · rw [if_neg hown, if_neg hown]
    try dsimp only
    cases ctx.formFileOk with
    | error e => rfl
    | ok u =>
    try dsimp only
    by_cases hct : ctx.contentTypeHeader = ""
    · rw [if_pos hct, if_pos hct]
    · rw [if_neg hct, if_neg hct]
      try dsimp only
      cases ctx.parseMediaType ctx.contentTypeHeader with
      | error e => rfl
      | ok mimeType =>
      try dsimp only
      by_cases hmt : mimeType ≠ "video/mp4"
      · rw [if_pos hmt, if_pos hmt]
      · rw [if_neg hmt, if_neg hmt]
        try dsimp only
        cases ctx.createTempResult with
        | error e => rfl
        | ok tmp =>
        try dsimp only
        rw [afterTemp_trace_presign_free]

theorem dbWrites_create (q : String) (tr : List Effect) :
    dbWrites (.create q :: tr) = dbWrites tr := rfl

theorem dbWrites_remove (q : String) (tr : List Effect) :
    dbWrites (.remove q :: tr) = dbWrites tr := rfl

theorem dbWrites_append (l1 l2 : List Effect) :
    dbWrites (l1 ++ l2) = dbWrites l1 ++ dbWrites l2 := by
  simp [dbWrites, List.filterMap_append]

theorem afterProcessed_dbWrites (ctx : UploadCtx) (video : Video)
    (orientation : String) :
    ∀ v ∈ dbWrites (uploadAfterProcessed ctx video orientation).2,
      ∃ bs, v.videoURL = some (encodeRef ctx.cfg.s3Bucket
        (orientation ++ "-" ++ hexEncode bs ++ ".mp4")) := by
  unfold uploadAfterProcessed
  cases ctx.openProcessedOk with
  | error e => intro v hv; simp [dbWrites] at hv
  | ok u =>
  cases ctx.randBytes with
  | error e => intro v hv; simp [dbWrites] at hv
  | ok bs =>
  try dsimp only
  cases ctx.s3PutOk with
  | error e => intro v hv; simp [dbWrites] at hv
  | ok u2 =>
  try dsimp only
  cases ctx.dbUpdateOk with
  | error e =>
    intro v hv
    simp [dbWrites] at hv
    exact ⟨bs, by simp [hv]⟩
  | ok u3 =>
    try dsimp only
    split
    · intro v hv
      simp [dbWrites] at hv
      exact ⟨bs, by simp [hv]⟩
    · intro v hv
      simp [dbWrites] at hv
      exact ⟨bs, by simp [hv]⟩

theorem afterTemp_dbWrites (ctx : UploadCtx) (video : Video) (tmp : String) :
    ∀ v ∈ dbWrites (uploadAfterTemp ctx video tmp).2,
      ∃ o bs, (o = "16:9" ∨ o = "9:16" ∨ o = "other") ∧
        v.videoURL = some (encodeRef ctx.cfg.s3Bucket
          (o ++ "-" ++ hexEncode bs ++ ".mp4")) := by
  unfold uploadAfterTemp
  cases ctx.copyOk with
  | error e => intro v hv; simp [dbWrites] at hv
  | ok u =>
  cases ctx.seekOk with
  | error e => intro v hv; simp [dbWrites] at hv
  | ok u2 =>
  try dsimp only
  cases hor : runGetVideoAspect ctx.ffprobeStreams with
  | error e => intro v hv; simp [dbWrites] at hv
  | ok orientation =>
  try dsimp only
  cases processVideoForFastStart ctx.ffmpegOk tmp with
  | error e => intro v hv; simp [dbWrites] at hv
  | ok pp =>
  try dsimp only
  intro v hv
  rw [dbWrites_create, dbWrites_append] at hv
  simp only [dbWrites, List.filterMap] at hv
  rw [List.append_nil] at hv
  obtain ⟨bs, hbs⟩ := afterProcessed_dbWrites ctx video orientation v hv
  exact ⟨orientation, bs, runGetVideoAspect_mem _ _ hor, hbs⟩

/-- C5: across all requests and all presigner behaviours, the record
store only ever receives location references in the compact
`bucket,key` form (bucket the configured one, key the derived
orientation-prefixed key), and the whole effect trace — in particular
every record write — is unchanged when the presigner is replaced, so a
presigned URL is never persisted; signing feeds only the response. -/
theorem persisted_compact_invariant (ctx : UploadCtx)
    (p : String → String → Nat → Except String String) :
    (handlerUploadVideo (setPresign ctx p)).2 = (handlerUploadVideo ctx).2 ∧
    ∀ v ∈ dbWrites (handlerUploadVideo ctx).2,
      ∃ o bs, (o = "16:9" ∨ o = "9:16" ∨ o = "other") ∧
        v.videoURL = some (encodeRef ctx.cfg.s3Bucket
          (o ++ "-" ++ hexEncode bs ++ ".mp4")) := by
  refine ⟨handler_trace_presign_free ctx p, ?_⟩
  unfold handlerUploadVideo
  cases ctx.parsedVideoID with
  | none => intro v hv; simp [dbWrites] at hv
  | some videoID =>
  try dsimp only
  cases ctx.bearerToken with
  | error e => intro v hv; simp [dbWrites] at hv
  | ok token =>
  try dsimp only
  cases ctx.jwtUserID token with
  | error e => intro v hv; simp [dbWrites] at hv
  | ok userID =>
  try dsimp only
  cases ctx.dbGetVideo videoID with
  | error e => intro v hv; simp [dbWrites] at hv
  | ok video =>
  try dsimp only
  by_cases hown : video.userID ≠ userID
  · rw [if_pos hown]
    intro v hv
    simp [dbWrites] at hv
  · rw [if_neg hown]
    try dsimp only
    cases ctx.formFileOk with
    | error e => intro v hv; simp [dbWrites] at hv
    | ok u =>
    try dsimp only
    by_cases hct : ctx.contentTypeHeader = ""
    · rw [if_pos hct]
      intro v hv
      simp [dbWrites] at hv
    · rw [if_neg hct]
      try dsimp only
      cases ctx.parseMediaType ctx.contentTypeHeader with
      | error e => intro v hv; simp [dbWrites] at hv
      | ok mimeType =>
      try dsimp only
      by_cases hmt : mimeType ≠ "video/mp4"
      · rw [if_pos hmt]
        intro v hv
        simp [dbWrites] at hv
      · rw [if_neg hmt]
        try dsimp only
        cases ctx.createTempResult with
        | error e => intro v hv; simp [dbWrites] at hv
        | ok tmp =>
        try dsimp only
        intro v hv
        rw [dbWrites_create, dbWrites_append] at hv
        simp only [dbWrites, List.filterMap] at hv
        rw [List.append_nil] at hv
        exact afterTemp_dbWrites ctx video tmp v hv

/-- C5 witness: replacing the presigner by one that always fails leaves
the base request's effect trace unchanged. -/
theorem persisted_compact_invariant_witness :
    (handlerUploadVideo (setPresign ctxBase
      (fun _ _ _ => .error "no presigner"))).2 =
    (handlerUploadVideo ctxBase).2 :=
  (persisted_compact_invariant ctxBase (fun _ _ _ => .error "no presigner")).1

/-- C8: a fully successful owner upload whose stream classifies as 16:9
puts exactly one object whose key is the orientation tag, a hyphen, the
64-character hex encoding of the 32 random bytes, and `".mp4"`, and
persists exactly one record write whose reference is the compact
encoding of the bucket with that key. -/
theorem upload_success_key_shape (ctx : UploadCtx)
    (videoID token userID tmp : String) (video : Video) (bs : List (Fin 256))
    (h1 : ctx.parsedVideoID = some videoID)
    (h2 : ctx.bearerToken = .ok token)
    (h3 : ctx.jwtUserID token = .ok userID)
    (h4 : ctx.dbGetVideo videoID = .ok video)
    (h5 : video.userID = userID)
    (h6 : ctx.formFileOk = .ok ())
    (h7 : ctx.contentTypeHeader ≠ "")
    (h8 : ctx.parseMediaType ctx.contentTypeHeader = .ok "video/mp4")
    (h9 : ctx.createTempResult = .ok tmp)
    (h10 : ctx.copyOk = .ok ())
    (h11 : ctx.seekOk = .ok ())
    (h12 : runGetVideoAspect ctx.ffprobeStreams = .ok "16:9")
    (h13 : ctx.ffmpegOk = .ok ())
    (h14 : ctx.openProcessedOk = .ok ())
    (h15 : ctx.randBytes = .ok bs)
    (h16 : bs.length = 32)
    (h17 : ctx.s3PutOk = .ok ())
    (h18 : ctx.dbUpdateOk = .ok ()) :
    s3Puts (handlerUploadVideo ctx).2 =
      [(ctx.cfg.s3Bucket, "16:9-" ++ hexEncode bs ++ ".mp4")] ∧
    dbWrites (handlerUploadVideo ctx).2 =
      [{ video with videoURL := some (encodeRef ctx.cfg.s3Bucket
          ("16:9-" ++ hexEncode bs ++ ".mp4")) }] ∧
    (hexEncode bs).length = 64 ∧
    ∀ c ∈ (hexEncode bs).data, c ∈ hexChars := by
  have htr : (handlerUploadVideo ctx).2 =
      [.create tmp, .create (tmp ++ ".processing"),
       .s3Put ctx.cfg.s3Bucket ("16:9" ++ "-" ++ hexEncode bs ++ ".mp4"),
       .dbUpdate { video with videoURL := some (encodeRef ctx.cfg.s3Bucket
          ("16:9" ++ "-" ++ hexEncode bs ++ ".mp4")) },
       .remove (tmp ++ ".processing"), .remove tmp] := by
    simp only [handlerUploadVideo, uploadAfterTemp, uploadAfterProcessed,
      processVideoForFastStart, h1, h2, h3, h4, h5, h6, h8, h9, h10, h11,
      h12, h13, h14, h15, h17, h18]
    rw [if_neg (by simp), if_neg h7, if_neg (by simp)]
    split <;> rfl
  refine ⟨by rw [htr]; rfl, by rw [htr]; rfl, ?_, ?_⟩
  · have e1 : (hexEncode bs).length = (hexEncodeL bs).length := rfl
    rw [e1, hexEncodeL_length, h16]
  · intro c hc
    exact hexEncodeL_mem bs c hc

/-- C8 witness: the fully successful base request persists the compact
reference for the key derived from 32 zero bytes. -/
theorem upload_success_key_shape_witness :
    s3Puts (handlerUploadVideo ctxBase).2 =
      [("tubely", "16:9-" ++ hexEncode (List.replicate 32 (0 : Fin 256)) ++
        ".mp4")] ∧
    dbWrites (handlerUploadVideo ctxBase).2 =
      [{ vidRec with videoURL := some (encodeRef "tubely"
          ("16:9-" ++ hexEncode (List.replicate 32 (0 : Fin 256)) ++
            ".mp4")) }] ∧
    (hexEncode (List.replicate 32 (0 : Fin 256))).length = 64 ∧
    ∀ c ∈ (hexEncode (List.replicate 32 (0 : Fin 256))).data,
      c ∈ hexChars := by
  have hasp : runGetVideoAspect ctxBase.ffprobeStreams = .ok "16:9" := by
    show runGetVideoAspect (.ok [{ width := 1920, height := 1080 }]) =
      .ok "16:9"
    simp [runGetVideoAspect, getVideoAspect, aspect_1920_1080]
  exact upload_success_key_shape ctxBase "vid-1" "tok" "owner-1"
    "/tmp/tubely-upload.mp4" vidRec (List.replicate 32 (0 : Fin 256))
    rfl rfl rfl rfl rfl rfl (by decide) rfl rfl rfl rfl hasp rfl rfl rfl
    (by decide) rfl rfl

/-- C9 counterexample: a request whose declared content type parses to
`image/gif` is rejected by the thumbnail type check, although the claim
says gif is accepted. -/
theorem thumbnail_gif_rejected :
    handlerUploadThumbnail thumbGif =
      (.err 400 "Thumbnail must be a jpeg or png", []) := by
  decide

/-- C9 as amended: once a thumbnail request reaches the media-type
check, the check passes exactly for the parsed types `image/jpeg` and
`image/png`; every other parsed type (gif included) is answered with
the type-check rejection and an empty effect trace — before any file is
written or any record is mutated. -/
theorem thumbnail_accepted_types (ctx : ThumbCtx)
    (videoID token userID mimeType : String)
    (h1 : ctx.parsedVideoID = some videoID)
    (h2 : ctx.bearerToken = .ok token)
    (h3 : ctx.jwtUserID token = .ok userID)
    (h4 : ctx.formFileOk = .ok ())
    (h5 : ctx.contentTypeHeader ≠ "")
    (h6 : ctx.parseMediaType ctx.contentTypeHeader = .ok mimeType) :
    ((mimeType = "image/jpeg" ∨ mimeType = "image/png") ↔
      (handlerUploadThumbnail ctx).1 ≠
        .err 400 "Thumbnail must be a jpeg or png") ∧
    (¬ (mimeType = "image/jpeg" ∨ mimeType = "image/png") →
      handlerUploadThumbnail ctx =
        (.err 400 "Thumbnail must be a jpeg or png", [])) := by
  by_cases hm : mimeType = "image/jpeg" ∨ mimeType = "image/png"
  · have hcond : ¬ (mimeType ≠ "image/jpeg" ∧ mimeType ≠ "image/png") := by
      tauto
    have hne : (handlerUploadThumbnail ctx).1 ≠
        .err 400 "Thumbnail must be a jpeg or png" := by
      simp only [handlerUploadThumbnail, h1, h2, h3, h4, h6]
      rw [if_neg h5, if_neg hcond]
      cases ctx.dbGetVideo videoID with
      | error e => simp
      | ok video =>
        try dsimp only
        by_cases hown : video.userID ≠ userID
        · rw [if_pos hown]
          simp
        · rw [if_neg hown]
          try dsimp only
          by_cases hext : contentTypeToExt ctx.contentTypeHeader = ""
          · rw [if_pos hext]
            simp
          · rw [if_neg hext]
            try dsimp only
            cases ctx.createFileOk with
            | error e => simp
            | ok u =>
            try dsimp only
            cases ctx.copyOk with
            | error e => simp
            | ok u2 =>
            try dsimp only
            cases ctx.dbUpdateOk with
            | error e => simp
            | ok u3 => simp
    exact ⟨iff_of_true hm hne, fun hc => absurd hm hc⟩
  · obtain ⟨hmj, hmp⟩ : mimeType ≠ "image/jpeg" ∧ mimeType ≠ "image/png" := by
      tauto
    have hrun : handlerUploadThumbnail ctx =
        (.err 400 "Thumbnail must be a jpeg or png", []) := by
      simp [handlerUploadThumbnail, h1, h2, h3, h4, h5, h6, hmj, hmp]
    refine ⟨iff_of_false hm ?_, fun _ => hrun⟩
    intro hne
    exact hne (by rw [hrun])

/-- C9 witness: a png request reaches past the type check. -/
theorem thumbnail_accepted_types_witness :
    ((("image/png" : String) = "image/jpeg" ∨
      ("image/png" : String) = "image/png") ↔
      (handlerUploadThumbnail thumbBase).1 ≠
        .err 400 "Thumbnail must be a jpeg or png") ∧
    (¬ (("image/png" : String) = "image/jpeg" ∨
        ("image/png" : String) = "image/png") →
      handlerUploadThumbnail thumbBase =
        (.err 400 "Thumbnail must be a jpeg or png", [])) :=
  thumbnail_accepted_types thumbBase "vid-1" "tok" "owner-1" "image/png"
    rfl rfl rfl rfl (by decide) rfl
